import Mathlib

/-!
# Verification of the goblin-beat canvas pipeline

A shallow embedding, in Lean 4, of the Obsidian-canvas parsing / serializing /
rendering pipeline of the `dhatcher/goblin-beat` repository:

* `src/quartz/plugins/transformers/canvas.ts`
  (`parseCanvasData`, `serializeCanvasData`, `validateNode`, `validateEdge`,
  the `CanvasTransformer.textTransform` entry point);
* `src/quartz/plugins/transformers/canvas-renderer.ts`
  (`escapeHtml`, `resolveFileUrl`, the per-node renderers, `renderEdge`,
  `renderCanvasError`, `renderCanvasToHtml`);
* `src/quartz/static/scripts/canvas-graph.inline.ts` (`getNodeAnchor`).

JavaScript runtime values that the TypeScript code manipulates dynamically are
embedded as an inductive `Json` type.  `JSON.parse` and `JSON.stringify` are
JavaScript builtins, not repository code; we model the result of `JSON.parse`
as an `Option Json` (with `none` standing for a thrown syntax error caught by
the surrounding `try`/`catch`), and implement `JSON.stringify` over `Json`
values directly.  JavaScript numbers are embedded as rationals: every numeric
operation performed by the embedded code (comparison, halving in
`getNodeAnchor`, decimal printing of integral values) is exact on the values
the pipeline handles.
-/

namespace GoblinBeat

/-- A JSON value, as produced by the JavaScript `JSON.parse` builtin.
Objects are ordered association lists of string keys (JavaScript preserves
insertion order; `JSON.parse` never produces duplicate keys that matter here —
lookup takes the first binding). -/
inductive Json where
  | null : Json
  | bool (b : Bool) : Json
  | num (q : ℚ) : Json
  | str (s : String) : Json
  | arr (elems : List Json) : Json
  | obj (fields : List (String × Json)) : Json
deriving Repr

/-- `typeof v === "object" && v !== null && !Array.isArray(v)` — the
`isRecord` helper of `canvas.ts`. -/
def Json.isRecord : Json → Bool
  | .obj _ => true
  | _ => false

/-- Property access `v["k"]` on a JSON value: `some` the bound value for an
object with the key, otherwise `none` (JavaScript `undefined`). -/
def Json.getField : Json → String → Option Json
  | .obj fields, k => fields.lookup k
  | _, _ => none

/-- `typeof v["k"] === "string"` access: the string value when the field is
present and a string, otherwise `none`. -/
def Json.getStr (j : Json) (k : String) : Option String :=
  match j.getField k with
  | some (.str s) => some s
  | _ => none

/-- `typeof v["k"] === "number"` access: the numeric value when the field is
present and a number, otherwise `none`. -/
def Json.getNum (j : Json) (k : String) : Option ℚ :=
  match j.getField k with
  | some (.num q) => some q
  | _ => none

/-- `Array.isArray(v["k"])` access: the element list when the field is present
and an array, otherwise `none`. -/
def Json.getArr (j : Json) (k : String) : Option (List Json) :=
  match j.getField k with
  | some (.arr xs) => some xs
  | _ => none

-- ── The validated canvas model (interfaces of canvas.ts) ────────────────────

/-- The node `type` discriminator: `"text" | "file" | "link" | "group"`. -/
inductive NodeType where
  | text : NodeType
  | file : NodeType
  | link : NodeType
  | group : NodeType
deriving DecidableEq, Repr

/-- The string spelling of a node type (its JSON representation). -/
def NodeType.toString : NodeType → String
  | .text => "text"
  | .file => "file"
  | .link => "link"
  | .group => "group"

/-- Membership in `VALID_NODE_TYPES = Set(["text","file","link","group"])`,
returning the parsed discriminator. -/
def nodeTypeOfString : String → Option NodeType
  | "text" => some .text
  | "file" => some .file
  | "link" => some .link
  | "group" => some .group
  | _ => none

/-- An edge side hint: `"top" | "right" | "bottom" | "left"`. -/
inductive Side where
  | top : Side
  | right : Side
  | bottom : Side
  | left : Side
deriving DecidableEq, Repr

/-- The string spelling of a side (its JSON representation). -/
def Side.toString : Side → String
  | .top => "top"
  | .right => "right"
  | .bottom => "bottom"
  | .left => "left"

/-- Membership in `VALID_SIDES = Set(["top","right","bottom","left"])`,
returning the parsed side. -/
def sideOfString : String → Option Side
  | "top" => some .top
  | "right" => some .right
  | "bottom" => some .bottom
  | "left" => some .left
  | _ => none

/-- The `CanvasNode` interface of `canvas.ts`.  Optional fields are `Option`s
(absent ≡ the property being absent from the JavaScript object). -/
structure CanvasNode where
  id : String
  type : NodeType
  x : ℚ
  y : ℚ
  width : ℚ
  height : ℚ
  text : Option String := none
  file : Option String := none
  url : Option String := none
  label : Option String := none
  color : Option String := none
deriving DecidableEq, Repr

/-- The `CanvasEdge` interface of `canvas.ts`. -/
structure CanvasEdge where
  id : String
  fromNode : String
  toNode : String
  fromSide : Option Side := none
  toSide : Option Side := none
  label : Option String := none
  color : Option String := none
deriving DecidableEq, Repr

/-- The `CanvasData` interface: `{ nodes, edges }`. -/
structure CanvasData where
  nodes : List CanvasNode
  edges : List CanvasEdge
deriving DecidableEq, Repr

/-- A referential-integrity warning (`CanvasParseWarning`). -/
structure CanvasParseWarning where
  message : String
deriving DecidableEq, Repr

/-- `CanvasParseResult = CanvasParseSuccess | CanvasParseError`.  The success
variant carries the data and the warnings; the error variant carries only the
message (the source's error type has no warnings field). -/
inductive CanvasParseResult where
  | ok (data : CanvasData) (warnings : List CanvasParseWarning) : CanvasParseResult
  | error (e : String) : CanvasParseResult
deriving DecidableEq, Repr

-- ── Validation (canvas.ts, validateNode / validateEdge) ─────────────────────

/-- `validateNode(raw, index)` from `canvas.ts`: required string fields `id`,
`type`; required number fields `x`, `y`, `width`, `height` (checked in this
order, first failure reported); `type` must be a recognized discriminator;
optional fields are copied only when present and string-typed. -/
def validateNode (raw : Json) (index : Nat) : Except String CanvasNode :=
  if ¬ raw.isRecord then
    .error ("Node at index " ++ Nat.repr index ++ " is not an object")
  else
    match raw.getStr "id" with
    | none => .error ("Node at index " ++ Nat.repr index ++
        " is missing required string field \"id\"")
    | some idVal =>
    match raw.getStr "type" with
    | none => .error ("Node at index " ++ Nat.repr index ++
        " is missing required string field \"type\"")
    | some typeVal =>
    match raw.getNum "x" with
    | none => .error ("Node at index " ++ Nat.repr index ++
        " is missing required number field \"x\"")
    | some xVal =>
    match raw.getNum "y" with
    | none => .error ("Node at index " ++ Nat.repr index ++
        " is missing required number field \"y\"")
    | some yVal =>
    match raw.getNum "width" with
    | none => .error ("Node at index " ++ Nat.repr index ++
        " is missing required number field \"width\"")
    | some widthVal =>
    match raw.getNum "height" with
    | none => .error ("Node at index " ++ Nat.repr index ++
        " is missing required number field \"height\"")
    | some heightVal =>
    match nodeTypeOfString typeVal with
    | none => .error ("Node at index " ++ Nat.repr index ++ " has invalid type \"" ++
        typeVal ++ "\". Must be one of: text, file, link, group")
    | some ty =>
      .ok { id := idVal, type := ty, x := xVal, y := yVal,
            width := widthVal, height := heightVal,
            text := raw.getStr "text", file := raw.getStr "file",
            url := raw.getStr "url", label := raw.getStr "label",
            color := raw.getStr "color" }

/-- Reading an optional side field: the source sets the field only when it is
present, string-typed and in `VALID_SIDES`; every other case (absent, present
but non-string, present but unrecognized) silently leaves it unset. -/
def readSide (raw : Json) (k : String) : Option Side :=
  match raw.getField k with
  | some (.str s) => sideOfString s
  | _ => none

/-- `validateEdge(raw, index)` from `canvas.ts`: required string fields `id`,
`fromNode`, `toNode`; optional sides via `readSide`; optional `label`/`color`
copied only when string-typed. -/
def validateEdge (raw : Json) (index : Nat) : Except String CanvasEdge :=
  if ¬ raw.isRecord then
    .error ("Edge at index " ++ Nat.repr index ++ " is not an object")
  else
    match raw.getStr "id" with
    | none => .error ("Edge at index " ++ Nat.repr index ++
        " is missing required string field \"id\"")
    | some idVal =>
    match raw.getStr "fromNode" with
    | none => .error ("Edge at index " ++ Nat.repr index ++
        " is missing required string field \"fromNode\"")
    | some fromVal =>
    match raw.getStr "toNode" with
    | none => .error ("Edge at index " ++ Nat.repr index ++
        " is missing required string field \"toNode\"")
    | some toVal =>
      .ok { id := idVal, fromNode := fromVal, toNode := toVal,
            fromSide := readSide raw "fromSide", toSide := readSide raw "toSide",
            label := raw.getStr "label", color := raw.getStr "color" }

-- ── parseCanvasData (canvas.ts) ─────────────────────────────────────────────

/-- The node-validation loop of `parseCanvasData` (step 3): validate each raw
node at its array index, aborting on the first error. -/
def validateNodes : List Json → Nat → Except String (List CanvasNode)
  | [], _ => .ok []
  | r :: rest, i =>
    match validateNode r i with
    | .error e => .error e
    | .ok n =>
      match validateNodes rest (i + 1) with
      | .error e => .error e
      | .ok ns => .ok (n :: ns)

/-- The warning recorded for an edge whose `fromNode` is not a surviving node
id. -/
def fromNodeWarning (e : CanvasEdge) : CanvasParseWarning :=
  ⟨"Edge \"" ++ e.id ++ "\" references non-existent fromNode \"" ++
    e.fromNode ++ "\" — skipped"⟩

/-- The warning recorded for an edge whose `toNode` is not a surviving node
id. -/
def toNodeWarning (e : CanvasEdge) : CanvasParseWarning :=
  ⟨"Edge \"" ++ e.id ++ "\" references non-existent toNode \"" ++
    e.toNode ++ "\" — skipped"⟩

/-- The edge loop of `parseCanvasData` (step 5): validate each raw edge at its
array index, aborting on the first structural error; a structurally valid edge
whose `fromNode` is not in `ids` is skipped with `fromNodeWarning`; otherwise,
if its `toNode` is not in `ids`, it is skipped with `toNodeWarning`; otherwise
it is kept.  Warnings and kept edges appear in loop order. -/
def processEdges : List Json → Nat → List String → Except String (List CanvasEdge × List CanvasParseWarning)
  | [], _, _ => .ok ([], [])
  | r :: rest, i, ids =>
    match validateEdge r i with
    | .error err => .error err
    | .ok e =>
      match processEdges rest (i + 1) ids with
      | .error err => .error err
      | .ok (es, ws) =>
        if ¬ ids.contains e.fromNode then .ok (es, fromNodeWarning e :: ws)
        else if ¬ ids.contains e.toNode then .ok (es, toNodeWarning e :: ws)
        else .ok (e :: es, ws)

/-- Steps 2–5 of `parseCanvasData` (everything after `JSON.parse` succeeds):
top-level shape, node validation, node-id set, edge validation with
referential filtering. -/
def parseCanvasValue (parsed : Json) : CanvasParseResult :=
  if ¬ parsed.isRecord then
    .error "Invalid canvas schema: expected an object with nodes and edges"
  else
    match parsed.getArr "nodes" with
    | none => .error "Invalid canvas schema: \"nodes\" must be an array"
    | some rawNodes =>
    match parsed.getArr "edges" with
    | none => .error "Invalid canvas schema: \"edges\" must be an array"
    | some rawEdges =>
      match validateNodes rawNodes 0 with
      | .error e => .error e
      | .ok nodes =>
        -- step 4: the node-id set (`nodeIds`) is the ids of the validated nodes
        match processEdges rawEdges 0 (nodes.map fun n => n.id) with
        | .error e => .error e
        | .ok (edges, warnings) => .ok ⟨nodes, edges⟩ warnings

/-- `parseCanvasData(raw)` from `canvas.ts`.  The argument is the outcome of
`JSON.parse(raw)` (`none` ≡ a thrown syntax error, caught by the source's
`try`/`catch`); the rest of the function is `parseCanvasValue`. -/
def parseCanvasData (raw : Option Json) : CanvasParseResult :=
  match raw with
  | none => .error "Malformed JSON: unable to parse canvas file"
  | some parsed => parseCanvasValue parsed

-- ── Serialization (canvas.ts, serializeCanvasData; JSON.stringify model) ────

/-- A singleton field list for an optional string property: JavaScript objects
simply lack properties that were never assigned, so `JSON.stringify` omits
them. -/
def optStrField (k : String) (v : Option String) : List (String × Json) :=
  match v with
  | some s => [(k, .str s)]
  | none => []

/-- A singleton field list for an optional side property. -/
def optSideField (k : String) (v : Option Side) : List (String × Json) :=
  match v with
  | some s => [(k, .str s.toString)]
  | none => []

/-- The JSON value of a validated `CanvasNode`, with properties in the
insertion order used by `validateNode`. -/
def nodeToJson (n : CanvasNode) : Json :=
  .obj ([("id", .str n.id), ("type", .str n.type.toString),
         ("x", .num n.x), ("y", .num n.y),
         ("width", .num n.width), ("height", .num n.height)]
        ++ optStrField "text" n.text ++ optStrField "file" n.file
        ++ optStrField "url" n.url ++ optStrField "label" n.label
        ++ optStrField "color" n.color)

/-- The JSON value of a validated `CanvasEdge`, with properties in the
insertion order used by `validateEdge`. -/
def edgeToJson (e : CanvasEdge) : Json :=
  .obj ([("id", .str e.id), ("fromNode", .str e.fromNode),
         ("toNode", .str e.toNode)]
        ++ optSideField "fromSide" e.fromSide ++ optSideField "toSide" e.toSide
        ++ optStrField "label" e.label ++ optStrField "color" e.color)

/-- The JSON value of the object literal `\x7b nodes: data.nodes, edges: data.edges \x7d`. -/
def canvasDataToJson (d : CanvasData) : Json :=
  .obj [("nodes", .arr (d.nodes.map nodeToJson)),
        ("edges", .arr (d.edges.map edgeToJson))]

/-- A hexadecimal digit character for `\u00XX` escapes. -/
def hexDigit (n : Nat) : Char :=
  if n < 10 then Char.ofNat (48 + n) else Char.ofNat (87 + n)

/-- The `JSON.stringify` encoding of one character inside a string literal:
quote and backslash are escaped, the named control escapes are used where
JavaScript uses them, other control characters get a `\u00XX` escape, and
every other character (including `<`, `>`, `&`, the apostrophe) is emitted
verbatim. -/
def jsonEscapeChar (c : Char) : String :=
  if c = Char.ofNat 34 then "\\\""
  else if c = Char.ofNat 92 then "\\\\"
  else if c = Char.ofNat 8 then "\\b"
  else if c = Char.ofNat 12 then "\\f"
  else if c = Char.ofNat 10 then "\\n"
  else if c = Char.ofNat 13 then "\\r"
  else if c = Char.ofNat 9 then "\\t"
  else if c.toNat < 32 then
    String.mk [Char.ofNat 92, Char.ofNat 117, Char.ofNat 48, Char.ofNat 48,
               hexDigit (c.toNat / 16), hexDigit (c.toNat % 16)]
  else String.singleton c

/-- The body of a `JSON.stringify` string literal. -/
def jsonEscapeString (s : String) : String :=
  String.join (s.data.map jsonEscapeChar)

/-- Decimal printing of a JavaScript number.  All numbers this pipeline
serializes come from `JSON.parse`; integral values print without a decimal
point, exactly as JavaScript prints them.  (Non-integral rationals fall back
to the `Rat` printer; JavaScript would print a floating-point decimal there —
no claim in this development depends on that case.) -/
def numToString (q : ℚ) : String :=
  if q.den = 1 then q.num.repr else toString q

mutual

/-- `JSON.stringify` on a JSON value: literal atoms, quoted/escaped strings,
comma-separated arrays, and comma-separated `"key":value` objects in
property-insertion order. -/
def Json.stringify : Json → String
  | .null => "null"
  | .bool true => "true"
  | .bool false => "false"
  | .num q => numToString q
  | .str s => "\"" ++ jsonEscapeString s ++ "\""
  | .arr xs => "[" ++ stringifyElems xs ++ "]"
  | .obj fs => "\x7b" ++ stringifyFields fs ++ "\x7d"

/-- Comma-separated serialization of array elements. -/
def stringifyElems : List Json → String
  | [] => ""
  | [x] => Json.stringify x
  | x :: rest => Json.stringify x ++ "," ++ stringifyElems rest

/-- Comma-separated serialization of object fields. -/
def stringifyFields : List (String × Json) → String
  | [] => ""
  | [(k, v)] => "\"" ++ jsonEscapeString k ++ "\":" ++ Json.stringify v
  | (k, v) :: rest =>
      "\"" ++ jsonEscapeString k ++ "\":" ++ Json.stringify v ++ "," ++ stringifyFields rest

end

/-- `serializeCanvasData(data)` from `canvas.ts`:
`JSON.stringify(\x7b nodes: data.nodes, edges: data.edges \x7d)`. -/
def serializeCanvasData (d : CanvasData) : String :=
  Json.stringify (canvasDataToJson d)

-- ── Static renderer (canvas-renderer.ts) ────────────────────────────────────

/-- Global single-character replacement, the meaning of
`str.replace(/c/g, r)` for a one-character pattern `c`. -/
def replaceChar (s : String) (c : Char) (r : String) : String :=
  String.mk (s.data.flatMap fun ch => if ch = c then r.data else [ch])

/-- The apostrophe character (U+0027). -/
def apostrophe : Char := Char.ofNat 39

/-- `escapeHtml(str)` from `canvas-renderer.ts`: the five sequential global
replacements `&`→`&amp;`, `<`→`&lt;`, `>`→`&gt;`, `"`→`&quot;`,
apostrophe→`&#039;`, in that order. -/
def escapeHtml (str : String) : String :=
  replaceChar
    (replaceChar
      (replaceChar
        (replaceChar
          (replaceChar str '&' "&amp;")
          '<' "&lt;")
        '>' "&gt;")
      '"' "&quot;")
    apostrophe "&#039;"

/-- `resolveFileUrl(baseUrl, filePath)` from `canvas-renderer.ts`: drop one
trailing slash from the base URL (`slice(0, -1)`), drop a literal `.md`
suffix from the file path (`slice(0, -3)`), join with `/`. -/
def resolveFileUrl (baseUrl filePath : String) : String :=
  let normalized := if baseUrl.endsWith "/" then baseUrl.dropRight 1 else baseUrl
  let stripped := if filePath.endsWith ".md" then filePath.dropRight 3 else filePath
  normalized ++ "/" ++ stripped

/-- JavaScript string truthiness, as used by `node.text ? … : …`: false for
absent (undefined) and for the empty string. -/
def jsTruthy : Option String → Bool
  | some s => s ≠ ""
  | none => false

/-- The common `style="position:absolute;…"` attribute (plus closing `>`)
shared verbatim by all four node renderers. -/
def nodeStyleAttr (node : CanvasNode) : String :=
  "style=\"position:absolute;left:" ++ numToString node.x ++
  "px;top:" ++ numToString node.y ++
  "px;width:" ++ numToString node.width ++
  "px;height:" ++ numToString node.height ++ "px;\">"

/-- `renderTextNode(node)` from `canvas-renderer.ts`. -/
def renderTextNode (node : CanvasNode) : String :=
  let content := if jsTruthy node.text then escapeHtml (node.text.getD "") else ""
  "<div class=\"canvas-node canvas-node-text\" data-node-id=\"" ++
    escapeHtml node.id ++ "\" " ++ nodeStyleAttr node ++
  "<div class=\"canvas-node-content\">" ++ content ++ "</div>" ++
  "</div>"

/-- `renderFileNode(node, baseUrl)` from `canvas-renderer.ts`: href is the
escaped resolved URL, the visible label is the escaped raw file path. -/
def renderFileNode (node : CanvasNode) (baseUrl : String) : String :=
  let filePath := node.file.getD ""
  let href := resolveFileUrl baseUrl filePath
  let label := escapeHtml filePath
  "<div class=\"canvas-node canvas-node-file\" data-node-id=\"" ++
    escapeHtml node.id ++ "\" " ++ nodeStyleAttr node ++
  "<a href=\"" ++ escapeHtml href ++ "\">" ++ label ++ "</a>" ++
  "</div>"

/-- `renderGroupNode(node)` from `canvas-renderer.ts`. -/
def renderGroupNode (node : CanvasNode) : String :=
  let label := if jsTruthy node.label then escapeHtml (node.label.getD "") else ""
  "<div class=\"canvas-node canvas-node-group\" data-node-id=\"" ++
    escapeHtml node.id ++ "\" " ++ nodeStyleAttr node ++
  "<div class=\"canvas-group-label\">" ++ label ++ "</div>" ++
  "<div class=\"canvas-group-container\"></div>" ++
  "</div>"

/-- `renderLinkNode(node)` from `canvas-renderer.ts`: target and visible label
are both the escaped raw URL. -/
def renderLinkNode (node : CanvasNode) : String :=
  let url := node.url.getD ""
  let displayUrl := escapeHtml url
  "<div class=\"canvas-node canvas-node-link\" data-node-id=\"" ++
    escapeHtml node.id ++ "\" " ++ nodeStyleAttr node ++
  "<a href=\"" ++ escapeHtml url ++ "\">" ++ displayUrl ++ "</a>" ++
  "</div>"

/-- `renderNode(node, baseUrl)`: dispatch on the type discriminator.  The
source's `default` branch (render as text) is unreachable for a validated
node, whose discriminator is one of the four listed values. -/
def renderNode (node : CanvasNode) (baseUrl : String) : String :=
  match node.type with
  | .text => renderTextNode node
  | .file => renderFileNode node baseUrl
  | .group => renderGroupNode node
  | .link => renderLinkNode node

/-- `renderEdge(edge)` from `canvas-renderer.ts`. -/
def renderEdge (edge : CanvasEdge) : String :=
  let labelAttr :=
    if jsTruthy edge.label then
      " data-edge-label=\"" ++ escapeHtml (edge.label.getD "") ++ "\""
    else ""
  "<line class=\"canvas-edge\" " ++
  "data-edge-id=\"" ++ escapeHtml edge.id ++ "\" " ++
  "data-from-node=\"" ++ escapeHtml edge.fromNode ++ "\" " ++
  "data-to-node=\"" ++ escapeHtml edge.toNode ++ "\"" ++
  labelAttr ++ " />"

/-- `renderCanvasError(message)` from `canvas-renderer.ts`. -/
def renderCanvasError (message : String) : String :=
  "<div class=\"canvas-error\">" ++
  "<p class=\"canvas-error-message\">" ++ escapeHtml message ++ "</p>" ++
  "</div>"

/-- `renderCanvasToHtml(data, baseUrl)` from `canvas-renderer.ts`.  The
defensive guard `!data || !Array.isArray(data.nodes) || !Array.isArray(data.edges)`
is modelled by the `Option`: `none` stands for a null/undefined or
wrongly-shaped argument, while any genuine `CanvasData` value has both arrays
by construction and passes the guard. -/
def renderCanvasToHtml (data : Option CanvasData) (baseUrl : String) : String :=
  match data with
  | none => renderCanvasError "This canvas file could not be rendered. The data is malformed."
  | some d =>
    let nodesHtml := String.intercalate "\n" (d.nodes.map fun node => renderNode node baseUrl)
    let edgesHtml := String.intercalate "\n" (d.edges.map renderEdge)
    let svgSection :=
      if d.edges.length > 0 then
        "<svg class=\"canvas-edges\">\n" ++ edgesHtml ++ "\n</svg>"
      else
        "<svg class=\"canvas-edges\"></svg>"
    let jsonBlob := Json.stringify (canvasDataToJson d)
    "<div id=\"canvas-graph\" class=\"canvas-container\">\n" ++
    "<div class=\"canvas-nodes\">\n" ++ nodesHtml ++ "\n</div>\n" ++
    svgSection ++ "\n</div>\n" ++
    "<script type=\"application/json\" id=\"canvas-data\">" ++ jsonBlob ++ "</script>"

-- ── textTransform (canvas.ts, CanvasTransformer) ────────────────────────────

/-- `typeof v === "object" && v !== null` for a JSON value (`typeof null` is
`"object"` in JavaScript, hence the separate null exclusion; arrays also have
`typeof` `"object"`). -/
def isJsObjectNonNull : Json → Bool
  | .obj _ => true
  | .arr _ => true
  | _ => false

/-- The canvas-detection check of `textTransform`: the parsed value is a
non-null object and both `raw["nodes"]` and `raw["edges"]` are arrays.
(Property lookup on an array value yields undefined here, so arrays fail the
`Array.isArray` checks.) -/
def looksLikeCanvas (raw : Json) : Bool :=
  isJsObjectNonNull raw && (raw.getArr "nodes").isSome && (raw.getArr "edges").isSome

/-- `textTransform(_ctx, src)` of the `CanvasTransformer` plugin.  `raw`
models the outcome of `JSON.parse(src.trim())` (`none` ≡ thrown, caught);
`baseUrl` models `_ctx.cfg.configuration.baseUrl ?? ""`.  Non-canvas content
is returned unchanged; recognized canvas JSON is parsed and rendered (or
rendered as an error block). -/
def textTransform (src : String) (raw : Option Json) (baseUrl : String) : String :=
  let trimmed := src.trim
  if ¬ trimmed.startsWith "\x7b" then src
  else
    match raw with
    | none => src
    | some j =>
      if ¬ looksLikeCanvas j then src
      else
        match parseCanvasData (some j) with
        | .error e => renderCanvasError e
        | .ok d _warnings => renderCanvasToHtml (some d) baseUrl

-- ── Interactive renderer geometry (canvas-graph.inline.ts) ──────────────────

/-- `getNodeAnchor(node, side)` from `canvas-graph.inline.ts`.  The side hint
is an arbitrary runtime string (the client re-parses the embedded JSON, so the
switch really compares strings); the `switch` on it is translated as the
equivalent chain of equality tests, with the `default` branch returning the
centroid. -/
def getNodeAnchor (node : CanvasNode) (side : Option String) : ℚ × ℚ :=
  let cx := node.x + node.width / 2
  let cy := node.y + node.height / 2
  if side = some "top" then (cx, node.y)
  else if side = some "bottom" then (cx, node.y + node.height)
  else if side = some "left" then (node.x, cy)
  else if side = some "right" then (node.x + node.width, cy)
  else (cx, cy)

-- ── Specification-side helpers ──────────────────────────────────────────────

/-- Structural validation of all edges in array order (the edge loop of
`parseCanvasData` with the referential filtering factored out): the list of
structurally validated edges, or the first structural error. -/
def validateEdges : List Json → Nat → Except String (List CanvasEdge)
  | [], _ => .ok []
  | r :: rest, i =>
    match validateEdge r i with
    | .error err => .error err
    | .ok e =>
      match validateEdges rest (i + 1) with
      | .error err => .error err
      | .ok es => .ok (e :: es)

/-- An edge survives referential checking when both endpoints are surviving
node ids. -/
def edgeKept (ids : List String) (e : CanvasEdge) : Bool :=
  ids.contains e.fromNode && ids.contains e.toNode

/-- The warnings the edge loop records for one structurally valid edge: the
`fromNode` check runs first, and a failing check skips the edge, so at most
one warning is recorded per edge. -/
def edgeWarnings (ids : List String) (e : CanvasEdge) : List CanvasParseWarning :=
  if ¬ ids.contains e.fromNode then [fromNodeWarning e]
  else if ¬ ids.contains e.toNode then [toNodeWarning e]
  else []

/-- The per-character escaping function the spec describes: each of the five
HTML-significant characters becomes its entity, every other character is
unchanged. -/
def escapeHtmlChar (c : Char) : String :=
  if c = '&' then "&amp;"
  else if c = '<' then "&lt;"
  else if c = '>' then "&gt;"
  else if c = '"' then "&quot;"
  else if c = apostrophe then "&#039;"
  else String.singleton c

/-- Character-wise concatenation map over a string. -/
def concatMapChars (f : Char → String) (s : String) : String :=
  String.mk (s.data.flatMap fun c => (f c).data)

/-- Conformance to the canvas schema, spelled out structurally: the text
parsed as JSON (`some`), to an object whose `nodes` and `edges` properties are
arrays, every node of which passes `validateNode` and every edge of which
passes `validateEdge`.  Dangling edge references are not schema violations:
they yield warnings on a successful parse, never the error variant. -/
def conformsToCanvasSchema (raw : Option Json) : Bool :=
  match raw with
  | none => false
  | some j =>
    j.isRecord &&
    (match j.getArr "nodes", j.getArr "edges" with
     | some rawNodes, some rawEdges =>
        (match validateNodes rawNodes 0 with | .ok _ => true | .error _ => false) &&
        (match validateEdges rawEdges 0 with | .ok _ => true | .error _ => false)
     | _, _ => false)

-- ── General helper lemmas ───────────────────────────────────────────────────

/-- A string with a nonempty left part is nonempty. -/
theorem append_ne_empty_of_left (s t : String) (hs : s.length ≠ 0) : s ++ t ≠ "" := by
  intro heq
  have h2 := congrArg String.length heq
  rw [String.length_append] at h2
  have h4 : ("" : String).length = 0 := rfl
  rw [h4] at h2
  omega

/-- A concatenation map over a list is empty when every piece is empty. -/
theorem flatMap_eq_nil_of_forall {α β : Type} (l : List α) (f : α → List β)
    (h : ∀ x ∈ l, f x = []) : l.flatMap f = [] := by
  induction l with
  | nil => rfl
  | cons a rest ih =>
      rw [List.flatMap_cons, h a (by simp), ih fun x hx => h x (by simp [hx])]
      rfl

-- ── Claim C8: anchor-point geometry of the interactive renderer ─────────────

/-- **C8** — For every node rectangle and optional side hint, `getNodeAnchor`
returns: `top` → `(x + width/2, y)`, `bottom` → `(x + width/2, y + height)`,
`left` → `(x, y + height/2)`, `right` → `(x + width, y + height/2)`, and the
node's centroid `(x + width/2, y + height/2)` for an absent or unrecognized
hint. -/
theorem getNodeAnchor_spec (node : CanvasNode) :
    getNodeAnchor node (some "top") = (node.x + node.width / 2, node.y) ∧
    getNodeAnchor node (some "bottom") = (node.x + node.width / 2, node.y + node.height) ∧
    getNodeAnchor node (some "left") = (node.x, node.y + node.height / 2) ∧
    getNodeAnchor node (some "right") = (node.x + node.width, node.y + node.height / 2) ∧
    ∀ side : Option String, side ≠ some "top" → side ≠ some "bottom" →
      side ≠ some "left" → side ≠ some "right" →
      getNodeAnchor node side = (node.x + node.width / 2, node.y + node.height / 2) := by
  refine ⟨rfl, rfl, rfl, rfl, ?_⟩
  intro side h1 h2 h3 h4
  simp [getNodeAnchor, h1, h2, h3, h4]

/-- Witness for C8: a concrete node with an unrecognized side hint lands on
the centroid. -/
theorem getNodeAnchor_spec_witness :
    (some "diag" : Option String) ≠ some "top" ∧
    getNodeAnchor ⟨"a", .text, 10, 20, 30, 40, none, none, none, none, none⟩ (some "diag") =
      (10 + 30 / 2, 20 + 40 / 2) :=
  ⟨by decide,
   (getNodeAnchor_spec ⟨"a", .text, 10, 20, 30, 40, none, none, none, none, none⟩).2.2.2.2
     (some "diag") (by decide) (by decide) (by decide) (by decide)⟩

-- ── Claim C7: file-node hyperlink target and label ──────────────────────────

/-- **C7** — For every file node and base URL, the rendered hyperlink target
is the base URL with a single trailing slash removed, then `/`, then the
node's file path with a literal `.md` suffix stripped when present; the
visible link label is the raw escaped file path, not the stripped URL. -/
theorem renderFileNode_spec (node : CanvasNode) (baseUrl : String) :
    resolveFileUrl baseUrl (node.file.getD "") =
      (if baseUrl.endsWith "/" then baseUrl.dropRight 1 else baseUrl) ++ "/" ++
      (if (node.file.getD "").endsWith ".md" then (node.file.getD "").dropRight 3
       else node.file.getD "") ∧
    renderFileNode node baseUrl =
      "<div class=\"canvas-node canvas-node-file\" data-node-id=\"" ++
        escapeHtml node.id ++ "\" " ++ nodeStyleAttr node ++
      "<a href=\"" ++ escapeHtml (resolveFileUrl baseUrl (node.file.getD "")) ++ "\">" ++
        escapeHtml (node.file.getD "") ++ "</a>" ++ "</div>" :=
  ⟨rfl, rfl⟩

-- ── Claim C1: HTML escaping of externally-controlled strings ────────────────

/-- `escapeHtml` is the character-wise map sending each of the five
HTML-significant characters to its entity: the five sequential global
replacements compose into one pass (each later pattern never occurs in an
earlier replacement's output before its own replacement has run). -/
theorem escapeHtml_eq_concatMap (s : String) :
    escapeHtml s = concatMapChars escapeHtmlChar s := by
  unfold escapeHtml concatMapChars replaceChar
  congr 1
  simp only [List.flatMap_assoc]
  apply congrArg
  funext c
  by_cases h1 : c = '&'
  · subst h1; decide
  by_cases h2 : c = '<'
  · subst h2; decide
  by_cases h3 : c = '>'
  · subst h3; decide
  by_cases h4 : c = '"'
  · subst h4; decide
  by_cases h5 : c = apostrophe
  · subst h5; decide
  simp [h1, h2, h3, h4, h5, escapeHtmlChar, String.singleton]

/-- **C1 (amended)** — Every string inserted into the element markup is routed
through `escapeHtml` (see the node, edge and error renderers), and
`escapeHtml` escapes the five HTML-significant characters: it rewrites each
input character independently to its entity (or itself), and its output never
contains a literal `<`, `>`, `"` or apostrophe.  (The embedded JSON payload in
the `canvas-data` script element is exempt: `renderCanvasToHtml` inserts it
verbatim — see the counterexample.) -/
theorem escapeHtml_escapes (s : String) :
    escapeHtml s = concatMapChars escapeHtmlChar s ∧
    ∀ c ∈ (escapeHtml s).data, c ≠ '<' ∧ c ≠ '>' ∧ c ≠ '"' ∧ c ≠ apostrophe := by
  refine ⟨escapeHtml_eq_concatMap s, ?_⟩
  intro c hc
  rw [escapeHtml_eq_concatMap] at hc
  have hd : (concatMapChars escapeHtmlChar s).data =
      s.data.flatMap fun ch => (escapeHtmlChar ch).data := rfl
  rw [hd, List.mem_flatMap] at hc
  obtain ⟨c', _, hm⟩ := hc
  unfold escapeHtmlChar at hm
  split_ifs at hm with g1 g2 g3 g4 g5
  · simp at hm
    rcases hm with h | h | h | h | h <;> subst h <;> decide
  · simp at hm
    rcases hm with h | h | h | h <;> subst h <;> decide
  · simp at hm
    rcases hm with h | h | h | h <;> subst h <;> decide
  · simp at hm
    rcases hm with h | h | h | h | h | h <;> subst h <;> decide
  · simp at hm
    rcases hm with h | h | h | h | h | h <;> subst h <;> decide
  · have hc' : c = c' := by
      have : (String.singleton c').data = [c'] := rfl
      rw [this] at hm
      simpa using hm
    subst hc'
    exact ⟨g2, g3, g4, g5⟩

/-- Witness for C1: concrete evaluation of the amended escaping guarantee. -/
theorem escapeHtml_escapes_witness :
    ('&' ∈ (escapeHtml "<").data) ∧
    ('&' ≠ '<' ∧ '&' ≠ '>' ∧ '&' ≠ '"' ∧ '&' ≠ apostrophe) :=
  ⟨by decide, (escapeHtml_escapes "<").2 '&' (by decide)⟩

set_option maxRecDepth 40000 in
/-- Counterexample to C1 as stated: a text node whose externally-controlled
`text` is `<img src=x>` produces a `renderCanvasToHtml` output fragment in
which that string occurs verbatim — with literal `<` and `>` — inside the
embedded JSON payload (the markup copy is escaped, the payload copy is not). -/
theorem renderCanvasToHtml_unescaped_payload :
    "<img src=x>".data <:+: (renderCanvasToHtml
      (some ⟨[⟨"n1", .text, 0, 0, 200, 100, some "<img src=x>", none, none, none, none⟩], []⟩)
      "").data := by
  decide

-- ── Claim C3: totality and error rendering ──────────────────────────────────

/-- Every error message produced by `validateNode` is nonempty. -/
theorem validateNode_error_ne (r : Json) (i : Nat) (m : String)
    (h : validateNode r i = .error m) : m ≠ "" := by
  unfold validateNode at h
  repeat' split at h
  all_goals first
    | (simp only [Except.error.injEq] at h; subst h;
       intro hl;
       have h2 := congrArg String.length hl;
       simp only [String.length_append] at h2;
       have h3 : ("Node at index " : String).length = 14 := rfl;
       have h4 : ("" : String).length = 0 := rfl;
       rw [h3, h4] at h2;
       omega)
    | simp at h

/-- Every error message produced by `validateEdge` is nonempty. -/
theorem validateEdge_error_ne (r : Json) (i : Nat) (m : String)
    (h : validateEdge r i = .error m) : m ≠ "" := by
  unfold validateEdge at h
  repeat' split at h
  all_goals first
    | (simp only [Except.error.injEq] at h; subst h;
       intro hl;
       have h2 := congrArg String.length hl;
       simp only [String.length_append] at h2;
       have h3 : ("Edge at index " : String).length = 14 := rfl;
       have h4 : ("" : String).length = 0 := rfl;
       rw [h3, h4] at h2;
       omega)
    | simp at h

/-- Every error message produced by the node loop is nonempty. -/
theorem validateNodes_error_ne (rs : List Json) (i : Nat) (m : String)
    (h : validateNodes rs i = .error m) : m ≠ "" := by
  induction rs generalizing i with
  | nil => exact absurd h (by simp [validateNodes])
  | cons r rest ih =>
      unfold validateNodes at h
      split at h
      · injection h with h
        subst h
        exact validateNode_error_ne r i _ (by assumption)
      · split at h
        · injection h with h
          subst h
          exact ih (i + 1) (by assumption)
        · injection h

/-- Every error message produced by the edge loop is nonempty. -/
theorem processEdges_error_ne (rs : List Json) (i : Nat) (ids : List String) (m : String)
    (h : processEdges rs i ids = .error m) : m ≠ "" := by
  induction rs generalizing i with
  | nil => exact absurd h (by simp [processEdges])
  | cons r rest ih =>
      unfold processEdges at h
      split at h
      · injection h with h
        subst h
        exact validateEdge_error_ne r i _ (by assumption)
      · split at h
        · injection h with h
          subst h
          exact ih (i + 1) (by assumption)
        · split at h
          · injection h
          · split at h
            · injection h
            · injection h

/-- Every error message produced by `parseCanvasData` is nonempty. -/
theorem parseCanvasData_error_ne (raw : Option Json) (m : String)
    (h : parseCanvasData raw = .error m) : m ≠ "" := by
  rcases raw with _ | parsed
  · simp only [parseCanvasData, Except.error.injEq, CanvasParseResult.error.injEq] at h
    subst h
    decide
  · replace h : parseCanvasValue parsed = .error m := h
    unfold parseCanvasValue at h
    split at h
    · simp only [CanvasParseResult.error.injEq] at h
      subst h; decide
    · split at h
      · simp only [CanvasParseResult.error.injEq] at h
        subst h; decide
      · rename_i o1 rawNodes hNodes
        split at h
        · simp only [CanvasParseResult.error.injEq] at h
          subst h; decide
        · rename_i o2 rawEdges hEdges
          split at h
          · rename_i o3 e he
            simp only [CanvasParseResult.error.injEq] at h
            subst h
            exact validateNodes_error_ne _ _ _ he
          · rename_i o3 ns hns
            rcases hp : processEdges rawEdges 0 (List.map (fun n => n.id) ns) with e | ⟨es, ws⟩
            · have h2 : CanvasParseResult.error e = CanvasParseResult.error m := by
                rw [hp] at h; exact h
              injection h2 with h3
              subst h3
              exact processEdges_error_ne _ _ _ _ hp
            · have h2 : CanvasParseResult.ok ⟨ns, es⟩ ws = CanvasParseResult.error m := by
                rw [hp] at h; exact h
              simp at h2

/-- The edge loop is structural validation followed by referential filtering:
it keeps exactly the validated edges whose endpoints survive, and records the
per-edge warnings in order. -/
theorem processEdges_eq (rs : List Json) (i : Nat) (ids : List String) :
    processEdges rs i ids = (validateEdges rs i).map
      (fun ves => (ves.filter (edgeKept ids), ves.flatMap (edgeWarnings ids))) := by
  induction rs generalizing i with
  | nil => rfl
  | cons r rest ih =>
      rcases hv : validateEdge r i with err | e
      · simp [processEdges, validateEdges, hv, Except.map]
      · have ihr := ih (i + 1)
        rcases hrest : validateEdges rest (i + 1) with err | ves
        · rw [hrest] at ihr
          simp [processEdges, validateEdges, hv, hrest, ihr, Except.map]
        · rw [hrest] at ihr
          by_cases hfrom : e.fromNode ∈ ids
          · by_cases hto : e.toNode ∈ ids
            · simp [processEdges, validateEdges, hv, hrest, ihr, Except.map, hfrom, hto,
                    edgeKept, edgeWarnings, List.filter_cons, List.flatMap_cons]
            · simp [processEdges, validateEdges, hv, hrest, ihr, Except.map, hfrom, hto,
                    edgeKept, edgeWarnings, List.filter_cons, List.flatMap_cons]
          · simp [processEdges, validateEdges, hv, hrest, ihr, Except.map, hfrom,
                  edgeKept, edgeWarnings, List.filter_cons, List.flatMap_cons]

/-- Inversion of a successful parse: the top level had `nodes` and `edges`
arrays, all nodes validated to the output nodes, all edges validated
structurally, and the output edges / warnings are the referential filtering of
the validated edges against the output node ids. -/
theorem parseCanvasValue_ok_inv (j : Json) (d : CanvasData) (ws : List CanvasParseWarning)
    (h : parseCanvasValue j = .ok d ws) :
    ∃ rawNodes rawEdges ves,
      j.getArr "nodes" = some rawNodes ∧ j.getArr "edges" = some rawEdges ∧
      validateNodes rawNodes 0 = .ok d.nodes ∧
      validateEdges rawEdges 0 = .ok ves ∧
      d.edges = ves.filter (edgeKept (d.nodes.map fun n => n.id)) ∧
      ws = ves.flatMap (edgeWarnings (d.nodes.map fun n => n.id)) := by
  unfold parseCanvasValue at h
  split at h
  · cases h
  · split at h
    · cases h
    · rename_i o1 rawNodes hNodes
      split at h
      · cases h
      · rename_i o2 rawEdges hEdges
        split at h
        · cases h
        · rename_i o3 ns hns
          have hq := processEdges_eq rawEdges 0 (List.map (fun n => n.id) ns)
          rcases hv : validateEdges rawEdges 0 with err | ves
          · rw [hv] at hq
            rw [hq] at h
            simp [Except.map] at h
          · rw [hv] at hq
            rw [hq] at h
            simp only [Except.map] at h
            have h2 : CanvasParseResult.ok
                ⟨ns, ves.filter (edgeKept (List.map (fun n => n.id) ns))⟩
                (ves.flatMap (edgeWarnings (List.map (fun n => n.id) ns))) =
                CanvasParseResult.ok d ws := h
            injection h2 with hd hw
            subst hd
            subst hw
            exact ⟨rawNodes, rawEdges, ves, hNodes, hEdges, hns, hv, rfl, rfl⟩

/-- The error block is the fixed wrapper around the escaped message and
nothing else. -/
theorem renderCanvasError_eq (m : String) :
    renderCanvasError m =
      "<div class=\"canvas-error\"><p class=\"canvas-error-message\">" ++
        escapeHtml m ++ "</p></div>" := by
  unfold renderCanvasError
  simp only [String.append_assoc]
  rfl

/-- **C3** — `parseCanvasData` is total: every input (including the modelled
JSON syntax failure) yields either a success or the error variant; the
success variant is returned exactly on schema-conforming inputs, so every
non-conforming input (syntax failure, non-object value, wrong top-level
shape, invalid node or edge) returns the error variant, whose message is
nonempty, and `renderCanvasError` applied to that message yields the error
block containing exactly the escaped message inside the fixed wrapper. -/
theorem parseCanvasData_noThrow (raw : Option Json) :
    ((∃ d ws, parseCanvasData raw = .ok d ws) ∨
     (∃ m, parseCanvasData raw = .error m ∧ m ≠ "" ∧
       renderCanvasError m =
         "<div class=\"canvas-error\"><p class=\"canvas-error-message\">" ++
           escapeHtml m ++ "</p></div>")) ∧
    (conformsToCanvasSchema raw = true → ∃ d ws, parseCanvasData raw = .ok d ws) ∧
    (conformsToCanvasSchema raw = false →
      ∃ m, parseCanvasData raw = .error m ∧ m ≠ "" ∧
        renderCanvasError m =
          "<div class=\"canvas-error\"><p class=\"canvas-error-message\">" ++
            escapeHtml m ++ "</p></div>") := by
  have htot : (∃ d ws, parseCanvasData raw = .ok d ws) ∨
      (∃ m, parseCanvasData raw = .error m ∧ m ≠ "" ∧
        renderCanvasError m =
          "<div class=\"canvas-error\"><p class=\"canvas-error-message\">" ++
            escapeHtml m ++ "</p></div>") := by
    rcases h : parseCanvasData raw with ⟨d, ws⟩ | m
    · exact Or.inl ⟨d, ws, rfl⟩
    · exact Or.inr ⟨m, rfl, parseCanvasData_error_ne raw m h, renderCanvasError_eq m⟩
  refine ⟨htot, ?_, ?_⟩
  · intro hc
    rcases raw with _ | j
    · cases hc
    · unfold conformsToCanvasSchema at hc
      rw [Bool.and_eq_true] at hc
      obtain ⟨hrec, hrest⟩ := hc
      rcases hn : j.getArr "nodes" with _ | rawNodes
      · rw [hn] at hrest; cases hrest
      · rcases he : j.getArr "edges" with _ | rawEdges
        · rw [hn, he] at hrest; cases hrest
        · rw [hn, he] at hrest
          rw [Bool.and_eq_true] at hrest
          obtain ⟨hvn, hve⟩ := hrest
          rcases hns : validateNodes rawNodes 0 with e | ns
          · rw [hns] at hvn; cases hvn
          · rcases hves : validateEdges rawEdges 0 with e | ves
            · rw [hves] at hve; cases hve
            · refine ⟨⟨ns, ves.filter (edgeKept (ns.map fun n => n.id))⟩,
                      ves.flatMap (edgeWarnings (ns.map fun n => n.id)), ?_⟩
              show parseCanvasValue j = _
              unfold parseCanvasValue
              rw [hn, he]
              have hq := processEdges_eq rawEdges 0 (ns.map fun n => n.id)
              rw [hves] at hq
              simp [hrec, hns, hq, Except.map]
  · intro hc
    rcases htot with ⟨d, ws, hok⟩ | herr
    · exfalso
      rcases raw with _ | j
      · simp [parseCanvasData] at hok
      · replace hok : parseCanvasValue j = .ok d ws := hok
        have hrec : j.isRecord = true := by
          by_contra hr
          have hbad : parseCanvasValue j =
              .error "Invalid canvas schema: expected an object with nodes and edges" := by
            unfold parseCanvasValue
            simp [hr]
          rw [hbad] at hok
          cases hok
        obtain ⟨rawNodes, rawEdges, ves, hN, hE, hvn, hve, _, _⟩ :=
          parseCanvasValue_ok_inv j d ws hok
        simp only [conformsToCanvasSchema] at hc
        rw [hN, hE] at hc
        simp [hrec, hvn, hve] at hc
    · exact herr

/-- Witness for C3: a JSON value of the wrong shape does not conform, and the
theorem yields the error variant with a nonempty message and the error
block. -/
theorem parseCanvasData_noThrow_witness :
    conformsToCanvasSchema (some (.str "garbage")) = false ∧
    ∃ m, parseCanvasData (some (.str "garbage")) = .error m ∧ m ≠ "" ∧
      renderCanvasError m =
        "<div class=\"canvas-error\"><p class=\"canvas-error-message\">" ++
          escapeHtml m ++ "</p></div>" :=
  ⟨by decide, (parseCanvasData_noThrow (some (.str "garbage"))).2.2 (by decide)⟩

-- ── Claim C4: referential integrity of output edges ─────────────────────────

/-- **C4** — Every edge of a successfully parsed document has both endpoints
among the output node ids; the output edges are exactly the structurally valid
edges whose endpoints survive, the warnings are exactly the per-edge
referential warnings, and every dropped edge is absent from the output with a
warning (naming its id and the missing endpoint — see `fromNodeWarning` /
`toNodeWarning`) present in the warning list. -/
theorem parse_referential_integrity (j : Json) (d : CanvasData) (ws : List CanvasParseWarning)
    (h : parseCanvasData (some j) = .ok d ws) :
    (∀ e ∈ d.edges, (d.nodes.map fun n => n.id).contains e.fromNode = true ∧
        (d.nodes.map fun n => n.id).contains e.toNode = true) ∧
    ∃ rawEdges ves,
      j.getArr "edges" = some rawEdges ∧ validateEdges rawEdges 0 = .ok ves ∧
      d.edges = ves.filter (edgeKept (d.nodes.map fun n => n.id)) ∧
      ws = ves.flatMap (edgeWarnings (d.nodes.map fun n => n.id)) ∧
      ∀ e ∈ ves, edgeKept (d.nodes.map fun n => n.id) e = false →
        e ∉ d.edges ∧
        ((d.nodes.map fun n => n.id).contains e.fromNode = false →
            fromNodeWarning e ∈ ws) ∧
        ((d.nodes.map fun n => n.id).contains e.fromNode = true →
            toNodeWarning e ∈ ws) := by
  replace h : parseCanvasValue j = .ok d ws := h
  obtain ⟨rawNodes, rawEdges, ves, hN, hE, hvn, hve, hedges, hws⟩ :=
    parseCanvasValue_ok_inv j d ws h
  constructor
  · intro e he
    rw [hedges, List.mem_filter] at he
    have hk := he.2
    unfold edgeKept at hk
    exact ⟨((Bool.and_eq_true _ _).mp hk).1, ((Bool.and_eq_true _ _).mp hk).2⟩
  · refine ⟨rawEdges, ves, hE, hve, hedges, hws, ?_⟩
    intro e he hk
    refine ⟨?_, ?_, ?_⟩
    · intro hmem
      rw [hedges, List.mem_filter] at hmem
      rw [hmem.2] at hk
      cases hk
    · intro hf
      rw [hws, List.mem_flatMap]
      refine ⟨e, he, ?_⟩
      unfold edgeWarnings
      rw [hf]
      simp
    · intro hf
      have ht : (d.nodes.map fun n => n.id).contains e.toNode = false := by
        unfold edgeKept at hk
        rw [hf] at hk
        simpa using hk
      rw [hws, List.mem_flatMap]
      refine ⟨e, he, ?_⟩
      unfold edgeWarnings
      rw [hf, ht]
      simp

/-- Witness for C4: a concrete two-node document with one kept edge. -/
theorem parse_referential_integrity_witness :
    ((CanvasData.mk
        [⟨"a", .text, 0, 0, 1, 1, none, none, none, none, none⟩,
         ⟨"b", .text, 2, 2, 1, 1, none, none, none, none, none⟩]
        [⟨"e1", "a", "b", none, none, none, none⟩]).nodes.map fun n => n.id).contains
      (CanvasEdge.mk "e1" "a" "b" none none none none).fromNode = true ∧
    ((CanvasData.mk
        [⟨"a", .text, 0, 0, 1, 1, none, none, none, none, none⟩,
         ⟨"b", .text, 2, 2, 1, 1, none, none, none, none, none⟩]
        [⟨"e1", "a", "b", none, none, none, none⟩]).nodes.map fun n => n.id).contains
      (CanvasEdge.mk "e1" "a" "b" none none none none).toNode = true := by
  have h := parse_referential_integrity
    (.obj [("nodes", .arr
        [.obj [("id", .str "a"), ("type", .str "text"), ("x", .num 0), ("y", .num 0),
               ("width", .num 1), ("height", .num 1)],
         .obj [("id", .str "b"), ("type", .str "text"), ("x", .num 2), ("y", .num 2),
               ("width", .num 1), ("height", .num 1)]]),
      ("edges", .arr
        [.obj [("id", .str "e1"), ("fromNode", .str "a"), ("toNode", .str "b")]])])
    (CanvasData.mk
      [⟨"a", .text, 0, 0, 1, 1, none, none, none, none, none⟩,
       ⟨"b", .text, 2, 2, 1, 1, none, none, none, none, none⟩]
      [⟨"e1", "a", "b", none, none, none, none⟩])
    [] (by decide)
  exact h.1 (CanvasEdge.mk "e1" "a" "b" none none none none) (by decide)

-- ── Claim C10: fromNode is checked first; one warning per dropped edge ──────

/-- **C10** — A structurally valid edge whose `fromNode` and `toNode` are both
absent from the surviving id set contributes exactly one warning — the
`fromNode` one — and no kept edge; the `toNode` check never runs. -/
theorem dangling_edge_single_warning (ids : List String) (e : CanvasEdge) (r : Json)
    (rest : List Json) (i : Nat)
    (hr : validateEdge r i = .ok e)
    (hfrom : ids.contains e.fromNode = false)
    (hto : ids.contains e.toNode = false) :
    processEdges (r :: rest) i ids =
      (processEdges rest (i + 1) ids).map (fun p => (p.1, fromNodeWarning e :: p.2)) ∧
    (fromNodeWarning e).message =
      "Edge \"" ++ e.id ++ "\" references non-existent fromNode \"" ++
        e.fromNode ++ "\" — skipped" := by
  have hfrom2 : e.fromNode ∉ ids := by simpa using hfrom
  constructor
  · rcases hp : processEdges rest (i + 1) ids with err | ⟨es, ws⟩
    · simp [processEdges, hr, hp, Except.map]
    · simp [processEdges, hr, hp, hfrom2, Except.map]
  · rfl

/-- Witness for C10: a concrete edge with both endpoints missing yields the
single `fromNode` warning. -/
theorem dangling_edge_single_warning_witness :
    processEdges [.obj [("id", .str "e1"), ("fromNode", .str "ghostA"),
        ("toNode", .str "ghostB")]] 0 ["a"] =
      (processEdges [] 1 ["a"]).map
        (fun p => (p.1, fromNodeWarning ⟨"e1", "ghostA", "ghostB", none, none, none, none⟩ :: p.2)) :=
  (dangling_edge_single_warning ["a"] ⟨"e1", "ghostA", "ghostB", none, none, none, none⟩
    (.obj [("id", .str "e1"), ("fromNode", .str "ghostA"), ("toNode", .str "ghostB")])
    [] 0 (by rfl) (by decide) (by decide)).1

-- ── Claim C5: first invalid node aborts the parse ───────────────────────────

/-- If every node before position `pre.length` validates and the node there
fails, the node loop fails with exactly that node's error message, regardless
of what follows. -/
theorem validateNodes_append_error (pre : List Json) (i : Nat) (pns : List CanvasNode)
    (hpre : validateNodes pre i = .ok pns)
    (bad : Json) (suf : List Json) (msg : String)
    (hbad : validateNode bad (i + pre.length) = .error msg) :
    validateNodes (pre ++ bad :: suf) i = .error msg := by
  induction pre generalizing i pns with
  | nil =>
      simp only [List.length_nil, Nat.add_zero] at hbad
      simp [validateNodes, hbad]
  | cons p rest ih =>
      unfold validateNodes at hpre
      rcases hv : validateNode p i with err | n
      · rw [hv] at hpre; cases hpre
      · rw [hv] at hpre
        rcases hrest : validateNodes rest (i + 1) with err | ns
        · rw [hrest] at hpre; cases hpre
        · rw [hrest] at hpre
          have hbad2 : validateNode bad ((i + 1) + rest.length) = .error msg := by
            have hlen : (i + 1) + rest.length = i + (p :: rest).length := by
              simp [List.length_cons]; omega
            rw [hlen]; exact hbad
          have hrec := ih (i + 1) ns hrest hbad2
          simp [validateNodes, hv, hrec]

/-- **C5** — When the nodes array consists of valid nodes `pre`, an invalid
node `bad`, and an arbitrary tail `suf`, the whole parse fails with exactly
the message `validateNode` reports for `bad` at index `pre.length` (the index
of the first invalid node, named in the message together with the offending
field); the result is the same for every tail `suf` and every edges array —
later elements are never validated — and the error variant carries no
warnings. -/
theorem first_invalid_node_aborts (pre : List Json) (bad : Json) (suf edges : List Json)
    (msg : String) (pns : List CanvasNode)
    (hpre : validateNodes pre 0 = .ok pns)
    (hbad : validateNode bad pre.length = .error msg) :
    parseCanvasData (some (.obj [("nodes", .arr (pre ++ bad :: suf)),
        ("edges", .arr edges)])) = .error msg := by
  have hv : validateNodes (pre ++ bad :: suf) 0 = .error msg :=
    validateNodes_append_error pre 0 pns hpre bad suf msg (by simpa using hbad)
  have hnode : (Json.obj [("nodes", .arr (pre ++ bad :: suf)),
      ("edges", .arr edges)]).getArr "nodes" = some (pre ++ bad :: suf) := rfl
  have hedge : (Json.obj [("nodes", .arr (pre ++ bad :: suf)),
      ("edges", .arr edges)]).getArr "edges" = some edges := rfl
  show parseCanvasValue _ = _
  unfold parseCanvasValue
  rw [hnode, hedge]
  simp [Json.isRecord, hv]

/-- Witness for C5: a non-object node at index 1 (after one valid node) aborts
the parse with its message, with a junk tail and a nonempty edges array left
unexamined. -/
theorem first_invalid_node_aborts_witness :
    parseCanvasData (some (.obj [("nodes", .arr
        ([.obj [("id", .str "a"), ("type", .str "text"), ("x", .num 0), ("y", .num 0),
                ("width", .num 1), ("height", .num 1)]] ++ .str "oops" ::
         [.bool true])),
      ("edges", .arr [.num 3])])) = .error "Node at index 1 is not an object" :=
  first_invalid_node_aborts
    [.obj [("id", .str "a"), ("type", .str "text"), ("x", .num 0), ("y", .num 0),
           ("width", .num 1), ("height", .num 1)]]
    (.str "oops") [.bool true] [.num 3] "Node at index 1 is not an object"
    [⟨"a", .text, 0, 0, 1, 1, none, none, none, none, none⟩]
    (by rfl) (by rfl)

-- ── Claim C2: parse ∘ serialize round-trip ──────────────────────────────────

/-- Re-validating the serialization of a validated node gives back the node,
for every node value (the validator checks exactly what the serializer
emits). -/
theorem validateNode_nodeToJson (n : CanvasNode) (i : Nat) :
    validateNode (nodeToJson n) i = .ok n := by
  obtain ⟨idv, ty, x, y, w, h, t, f, u, l, c⟩ := n
  cases ty <;> cases t <;> cases f <;> cases u <;> cases l <;> cases c <;>
    simp [validateNode, nodeToJson, Json.getStr, Json.getNum, Json.getField, Json.isRecord,
          optStrField, nodeTypeOfString, NodeType.toString, List.lookup]

/-- Re-validating the serialization of a validated edge gives back the edge,
for every edge value. -/
theorem validateEdge_edgeToJson (e : CanvasEdge) (i : Nat) :
    validateEdge (edgeToJson e) i = .ok e := by
  obtain ⟨idv, fn, tn, fs, ts, l, c⟩ := e
  have hside : ∀ s : Side, sideOfString s.toString = some s := by
    intro s; cases s <;> rfl
  cases fs <;> cases ts <;> cases l <;> cases c <;>
    simp [validateEdge, edgeToJson, Json.getStr, Json.getField, Json.isRecord,
          optStrField, optSideField, readSide, hside, List.lookup]

/-- The node loop over serialized nodes returns the original list. -/
theorem validateNodes_map (ns : List CanvasNode) (i : Nat) :
    validateNodes (ns.map nodeToJson) i = .ok ns := by
  induction ns generalizing i with
  | nil => rfl
  | cons n rest ih => simp [validateNodes, validateNode_nodeToJson, ih]

/-- Structural edge validation over serialized edges returns the original
list. -/
theorem validateEdges_map (es : List CanvasEdge) (i : Nat) :
    validateEdges (es.map edgeToJson) i = .ok es := by
  induction es generalizing i with
  | nil => rfl
  | cons e rest ih => simp [validateEdges, validateEdge_edgeToJson, ih]

/-- **C2** — For any document `d` obtained from a successful parse,
serializing (`serializeCanvasData d` is `JSON.stringify` of `d`'s JSON value;
`JSON.parse` of that string recovers the same JSON value) and re-parsing
succeeds with zero warnings (no dropped edges) and returns `d` itself,
field-for-field and order-preserving. -/
theorem serialize_parse_roundTrip (raw : Option Json) (d : CanvasData)
    (ws : List CanvasParseWarning) (h : parseCanvasData raw = .ok d ws) :
    serializeCanvasData d = Json.stringify (canvasDataToJson d) ∧
    parseCanvasData (some (canvasDataToJson d)) = .ok d [] := by
  refine ⟨rfl, ?_⟩
  rcases raw with _ | j
  · cases h
  · replace h : parseCanvasValue j = .ok d ws := h
    obtain ⟨rawNodes, rawEdges, ves, hN, hE, hvn, hve, hedges, hws⟩ :=
      parseCanvasValue_ok_inv j d ws h
    have hkept : ∀ e ∈ d.edges, edgeKept (d.nodes.map fun n => n.id) e = true := by
      intro e he
      rw [hedges, List.mem_filter] at he
      exact he.2
    show parseCanvasValue _ = _
    have hnode : (canvasDataToJson d).getArr "nodes" = some (d.nodes.map nodeToJson) := rfl
    have hedge : (canvasDataToJson d).getArr "edges" = some (d.edges.map edgeToJson) := rfl
    unfold parseCanvasValue
    rw [hnode, hedge]
    have hq := processEdges_eq (d.edges.map edgeToJson) 0 (d.nodes.map fun n => n.id)
    rw [validateEdges_map] at hq
    simp only [Except.map] at hq
    have hfilter : d.edges.filter (edgeKept (d.nodes.map fun n => n.id)) = d.edges :=
      List.filter_eq_self.mpr hkept
    have hwarn : d.edges.flatMap (edgeWarnings (d.nodes.map fun n => n.id)) = [] := by
      apply flatMap_eq_nil_of_forall
      intro e he
      have hk := hkept e he
      unfold edgeKept at hk
      unfold edgeWarnings
      rw [((Bool.and_eq_true _ _).mp hk).1, ((Bool.and_eq_true _ _).mp hk).2]
      simp
    rw [hfilter, hwarn] at hq
    have hrec : (canvasDataToJson d).isRecord = true := rfl
    simp [hrec, validateNodes_map, hq]

/-- Witness for C2: the one-node scenario document round-trips exactly. -/
theorem serialize_parse_roundTrip_witness :
    serializeCanvasData
        ⟨[⟨"n1", .text, 0, 0, 200, 100, some "Hello", none, none, none, none⟩], []⟩ =
      Json.stringify (canvasDataToJson
        ⟨[⟨"n1", .text, 0, 0, 200, 100, some "Hello", none, none, none, none⟩], []⟩) ∧
    parseCanvasData (some (canvasDataToJson
        ⟨[⟨"n1", .text, 0, 0, 200, 100, some "Hello", none, none, none, none⟩], []⟩)) =
      .ok ⟨[⟨"n1", .text, 0, 0, 200, 100, some "Hello", none, none, none, none⟩], []⟩ [] :=
  serialize_parse_roundTrip
    (some (.obj [("nodes", .arr
        [.obj [("id", .str "n1"), ("type", .str "text"), ("x", .num 0), ("y", .num 0),
               ("width", .num 200), ("height", .num 100), ("text", .str "Hello")]]),
      ("edges", .arr [])]))
    ⟨[⟨"n1", .text, 0, 0, 200, 100, some "Hello", none, none, none, none⟩], []⟩
    [] (by rfl)

-- ── Claim C9: the renderer's defensive branch is unreachable after parse ────

set_option maxRecDepth 10000 in
/-- **C9** — For a document produced by a successful parse, `renderCanvasToHtml`
never returns the malformed-data error block: the defensive guard (modelled by
the `none` argument case — a genuine `CanvasData` has both arrays by
construction) is not taken, and the output begins with the `canvas-graph`
container. -/
theorem render_no_error_block (raw : Option Json) (d : CanvasData)
    (ws : List CanvasParseWarning) (baseUrl : String)
    (h : parseCanvasData raw = .ok d ws) :
    (∃ rest, renderCanvasToHtml (some d) baseUrl = "<div id=\"canvas-graph\"" ++ rest) ∧
    renderCanvasToHtml (some d) baseUrl ≠
      renderCanvasError "This canvas file could not be rendered. The data is malformed." := by
  have key : ∀ s : String,
      "<div id=\"canvas-graph\" class=\"canvas-container\">\n" ++ s =
      "<div id=\"canvas-graph\"" ++ (" class=\"canvas-container\">\n" ++ s) := by
    intro s
    rw [← String.append_assoc]
    have hlit : ("<div id=\"canvas-graph\"" ++ " class=\"canvas-container\">\n" : String) =
        "<div id=\"canvas-graph\" class=\"canvas-container\">\n" := rfl
    rw [hlit]
  have hform : ∃ rest,
      renderCanvasToHtml (some d) baseUrl = "<div id=\"canvas-graph\"" ++ rest := by
    simp only [renderCanvasToHtml, String.append_assoc]
    exact ⟨_, key _⟩
  obtain ⟨rest, hr⟩ := hform
  refine ⟨⟨rest, hr⟩, ?_⟩
  intro heq
  rw [hr] at heq
  have h1 : ("<div id=\"canvas-graph\"" ++ rest).data[5]? = some 'i' := by
    rw [String.data_append, List.getElem?_append]
    norm_num
  have h2 : (renderCanvasError
      "This canvas file could not be rendered. The data is malformed.").data[5]? = some 'c' := by
    decide
  rw [heq, h2] at h1
  cases h1

/-- Witness for C9: the empty document renders without the error block. -/
theorem render_no_error_block_witness :
    renderCanvasToHtml (some ⟨[], []⟩) "" ≠
      renderCanvasError "This canvas file could not be rendered. The data is malformed." :=
  (render_no_error_block (some (.obj [("nodes", .arr []), ("edges", .arr [])]))
    ⟨[], []⟩ [] "" (by rfl)).2

-- ── Claim C6: textTransform passes non-canvas content through ───────────────

/-- **C6** — `textTransform` returns the source text unchanged unless the text
is recognized as canvas JSON (it parses to a non-null, non-array object with
array-typed `nodes` and `edges`); in the recognized case it returns the
rendered HTML of the parsed document, or the error block for the parse
failure.  The coherence hypothesis records a fact of JSON syntax: when
`JSON.parse(src.trim())` yields an object, the trimmed text starts with
`\x7b` (a JSON object literal can be preceded only by whitespace, which
`trim` removes), so the source's quick first-character check never rejects a
parseable object. -/
theorem textTransform_spec (src : String) (raw : Option Json) (baseUrl : String)
    (hcoh : ∀ fs, raw = some (Json.obj fs) → src.trim.startsWith "\x7b" = true) :
    ((match raw with
      | some j => looksLikeCanvas j
      | none => false) = false → textTransform src raw baseUrl = src) ∧
    (∀ j, raw = some j → looksLikeCanvas j = true →
      (∃ d ws, parseCanvasData (some j) = .ok d ws ∧
        textTransform src raw baseUrl = renderCanvasToHtml (some d) baseUrl) ∨
      (∃ e, parseCanvasData (some j) = .error e ∧
        textTransform src raw baseUrl = renderCanvasError e)) := by
  constructor
  · intro hrec
    unfold textTransform
    by_cases hs : src.trim.startsWith "\x7b"
    · rcases raw with _ | j
      · simp [hs]
      · simp only at hrec
        simp [hs, hrec]
    · simp [hs]
  · intro j hj hlook
    subst hj
    obtain ⟨fs, rfl⟩ : ∃ fs, j = Json.obj fs := by
      cases j with
      | obj fs => exact ⟨fs, rfl⟩
      | arr xs =>
          exfalso
          simp [looksLikeCanvas, Json.getArr, Json.getField] at hlook
      | null => exact absurd hlook (by simp [looksLikeCanvas, isJsObjectNonNull])
      | bool b => exact absurd hlook (by simp [looksLikeCanvas, isJsObjectNonNull])
      | num q => exact absurd hlook (by simp [looksLikeCanvas, isJsObjectNonNull])
      | str s => exact absurd hlook (by simp [looksLikeCanvas, isJsObjectNonNull])
    have hs : src.trim.startsWith "\x7b" = true := hcoh fs rfl
    rcases hp : parseCanvasData (some (Json.obj fs)) with ⟨d, ws⟩ | e
    · left
      exact ⟨d, ws, rfl, by simp [textTransform, hs, hlook, hp]⟩
    · right
      exact ⟨e, rfl, by simp [textTransform, hs, hlook, hp]⟩

/-- Witness for C6: ordinary markdown text passes through unchanged. -/
theorem textTransform_spec_witness :
    textTransform "not canvas content" none "" = "not canvas content" :=
  (textTransform_spec "not canvas content" none "" (fun _ h => by cases h)).1 rfl

end GoblinBeat
